import Mathlib

/-!
# Verification of the filter-and-aggregate core of `app.py`

Shallow embedding of the data-exploration dashboard's core pipeline
(`src/app.py`): schema normalization (`load_csv`, `normalize_columns`),
the row predicates (`contains_text_row`), the sidebar filter conjunction,
and the aggregations (`tool_counts`, group-by counts, categorical
breakdowns).  Python strings are modelled as Lean `String`s; `str.strip`
and `str.lower` are modelled over the underlying character lists
(ASCII case mapping, the whitespace characters of `Char.isWhitespace`).
Pandas `NaN` cells are modelled as `Option.none`; a parsed delimited file
is a `Frame` (header names plus rows of optional cells).  The stable
descending sort performed by `Series.value_counts` is modelled with
`List.insertionSort` (a stable sort).
-/

namespace App

/-! ## Python string primitives -/

/-- `str.strip()` on a character list: drop whitespace from both ends. -/
def pyStripL (l : List Char) : List Char :=
  ((l.dropWhile Char.isWhitespace).reverse.dropWhile Char.isWhitespace).reverse

/-- `str.strip()` on a string. -/
def pyStrip (s : String) : String := ⟨pyStripL s.data⟩

/-- `str.lower()` on a character list (ASCII case mapping). -/
def pyLowerL (l : List Char) : List Char := l.map Char.toLower

/-- `str.lower()` on a string. -/
def pyLower (s : String) : String := ⟨pyLowerL s.data⟩

/-- `str.upper()` on a string (ASCII case mapping). -/
def pyUpper (s : String) : String := ⟨s.data.map Char.toUpper⟩

/-- Python's `needle in hay` substring test on character lists. -/
def isSubstrL (needle hay : List Char) : Bool :=
  hay.tails.any (fun suf => needle.isPrefixOf suf)

/-- `sep.join(xs)` on character lists. -/
def joinSep (sep : List Char) : List (List Char) → List Char
  | [] => []
  | [x] => x
  | x :: y :: xs => x ++ sep ++ joinSep sep (y :: xs)

/-! ## Data model: records and the expected schema -/

/-- The 14 expected column names (`EXPECTED_COLUMNS` in `app.py`). -/
def EXPECTED_COLUMNS : List String :=
  ["country_label", "institution_name", "official_website", "tool_name",
   "tool_category", "use_case", "evidence_strength", "source_type",
   "source_title", "source_date", "source_link", "exact_snippet_or_quote",
   "why_it_supports_the_claim", "notes"]

/-- A `Record` is one dataset row projected to the 14 expected fields
(the only fields the filter pipeline reads). -/
structure Record where
  country_label : String
  institution_name : String
  official_website : String
  tool_name : String
  tool_category : String
  use_case : String
  evidence_strength : String
  source_type : String
  source_title : String
  source_date : String
  source_link : String
  exact_snippet_or_quote : String
  why_it_supports_the_claim : String
  notes : String
deriving DecidableEq

/-- The record's 14 expected field values, in `EXPECTED_COLUMNS` order
(the values of `row.get(c, "")` for `c in EXPECTED_COLUMNS`). -/
def rowFields (r : Record) : List String :=
  [r.country_label, r.institution_name, r.official_website, r.tool_name,
   r.tool_category, r.use_case, r.evidence_strength, r.source_type,
   r.source_title, r.source_date, r.source_link, r.exact_snippet_or_quote,
   r.why_it_supports_the_claim, r.notes]

/-- The haystack built by `contains_text_row`:
`" | ".join(str(row.get(c, "")) for c in EXPECTED_COLUMNS)`. -/
def hayL (r : Record) : List Char :=
  joinSep (" | ".data) ((rowFields r).map String.data)

/-- `contains_text_row(row, needle)` from `app.py` lines 266-271. -/
def contains_text_row (r : Record) (needle : String) : Bool :=
  if needle = "" then true
  else isSubstrL (pyLowerL needle.data) (pyLowerL (hayL r))

/-- The free-text filter step, `app.py` lines 337-339:
`if text_query.strip(): f = f[f.apply(contains_text_row(r, text_query.strip()))]`. -/
def textFilter (q : String) (rows : List Record) : List Record :=
  if pyStrip q = "" then rows
  else rows.filter (fun r => contains_text_row r (pyStrip q))

/-- The sidebar filter criteria: four categorical selections
("All" = no constraint) plus the free-text query. -/
structure Criteria where
  country : String
  category : String
  evidence : String
  sourceType : String
  query : String
deriving DecidableEq

/-- The filter conjunction, `app.py` lines 326-339. -/
def applyFilters (c : Criteria) (rows : List Record) : List Record :=
  let f1 := if c.country = "All" then rows
            else rows.filter (fun r => r.country_label = c.country)
  let f2 := if c.category = "All" then f1
            else f1.filter (fun r => r.tool_category = c.category)
  let f3 := if c.evidence = "All" then f2
            else f2.filter (fun r => r.evidence_strength = c.evidence)
  let f4 := if c.sourceType = "All" then f3
            else f3.filter (fun r => r.source_type = c.sourceType)
  textFilter c.query f4

/-! ## Aggregations -/

/-- Number of occurrences of `v` in `vs`. -/
def countOcc (v : String) (vs : List String) : Nat :=
  (vs.filter (fun x => x = v)).length

/-- The distinct values of `vs` in first-encounter order (the key order a
pandas hash table produces before `value_counts` sorts). -/
def distinctFirst : List String → List String
  | [] => []
  | v :: rest => v :: (distinctFirst rest).filter (fun x => x ≠ v)

/-- The (value, count) pairs of `vs`, keys in first-encounter order. -/
def tallyOf (vs : List String) : List (String × Nat) :=
  (distinctFirst vs).map (fun v => (v, countOcc v vs))

/-- Descending-by-count order used by `value_counts` (earlier key wins ties). -/
def descBy (p q : String × Nat) : Prop := q.2 ≤ p.2

instance : DecidableRel descBy := fun p q => Nat.decLe q.2 p.2

/-- `Series.value_counts()`: per-value counts, stably sorted by
descending count (ties keep first-encounter order). -/
def value_counts (vs : List String) : List (String × Nat) :=
  (tallyOf vs).insertionSort descBy

/-- The tool distribution of `app.py` lines 417-428: optionally replace
empty `tool_name`s by `"Unknown"` (flag on) or drop values whose strip is
empty (flag off), then `value_counts().head(top_n)`. -/
def tool_counts (vs : List String) (includeUnknown : Bool) (topN : Nat) :
    List (String × Nat) :=
  let vs2 := if includeUnknown then vs.map (fun v => if v = "" then "Unknown" else v)
             else vs.filter (fun v => pyStrip v ≠ "")
  (value_counts vs2).take topN

/-- Ascending key order used by `groupby` (keys are distinct, so ties are moot). -/
def ascStr (a b : String) : Prop := ¬ b < a

instance : DecidableRel ascStr := fun _ _ => instDecidableNot

/-- `f.groupby("country_label").size()`, `app.py` lines 482-486:
row count per distinct country, keys sorted ascending. -/
def groupSize (rows : List Record) : List (String × Nat) :=
  ((distinctFirst (rows.map (fun r => r.country_label))).insertionSort ascStr).map
    (fun v => (v, countOcc v (rows.map (fun r => r.country_label))))

/-- `f.groupby("country_label")["tool_name"].nunique()`, `app.py` lines
489-493: distinct tool_name count per country, keys sorted ascending. -/
def groupNunique (rows : List Record) : List (String × Nat) :=
  ((distinctFirst (rows.map (fun r => r.country_label))).insertionSort ascStr).map
    (fun v => (v, (distinctFirst ((rows.filter
      (fun r => r.country_label = v)).map (fun r => r.tool_name))).length))

/-- The map data of `app.py` lines 481-496: one of the two group-bys, with
blank country keys dropped afterwards. -/
def mapDf (rows : List Record) (totalMetric : Bool) : List (String × Nat) :=
  (if totalMetric then groupSize rows else groupNunique rows).filter
    (fun p => pyStrip p.1 ≠ "")

/-- The categorical breakdown of `app.py` lines 549-556 (and 585-592):
`series.replace("", pd.NA).dropna().value_counts()`, no truncation. -/
def catBreakdown (vs : List String) : List (String × Nat) :=
  value_counts (vs.filter (fun v => v ≠ ""))

/-! ## The schema normalizer (`normalize_columns`, `load_csv`) -/

/-- `re.sub(r"\s+", "_", s)` helper: the flag records whether the
previous character was whitespace (so a run yields a single `_`). -/
def collapseWsAux : Bool → List Char → List Char
  | _, [] => []
  | prevWs, c :: rest =>
    if c.isWhitespace then
      if prevWs then collapseWsAux true rest
      else '_' :: collapseWsAux true rest
    else c :: collapseWsAux false rest

/-- `re.sub(r"\s+", "_", s)`: collapse every maximal run of whitespace to
a single underscore. -/
def collapseWs (l : List Char) : List Char := collapseWsAux false l

/-- Normalization of one column name, `app.py` lines 224-230:
trim, then collapse internal whitespace runs to `_`. -/
def normName (s : String) : String := ⟨collapseWs (pyStripL s.data)⟩

/-- `normalize_columns(cols)` from `app.py`. -/
def normalize_columns (cols : List String) : List String := cols.map normName

/-- A parsed delimited file as produced by `pd.read_csv(..., dtype=str)`:
a header of column names and rows of cells, `none` modelling a missing
value (`NaN`). -/
structure Frame where
  header : List String
  rows : List (List (Option String))
deriving DecidableEq

/-- The expected columns absent from the normalized header — the columns
the loop `for c in EXPECTED_COLUMNS: if c not in df.columns: df[c] = ""`
appends. -/
def expectedMissing (fr : Frame) : List String :=
  EXPECTED_COLUMNS.filter (fun c => ¬ c ∈ normalize_columns fr.header)

/-- One row after the absent expected columns are appended as `""`. -/
def padRow (fr : Frame) (row : List (Option String)) : List (Option String) :=
  row ++ (expectedMissing fr).map (fun _ => some "")

/-- The per-cell coercion `fillna("").astype(str).str.strip()` applied to
every expected-named column (and to no other column). -/
def normCell (p : String × Option String) : Option String :=
  if p.1 ∈ EXPECTED_COLUMNS then some (pyStrip (p.2.getD "")) else p.2

/-- The body of `load_csv` after parsing (`app.py` lines 240-249):
normalize the column names, synthesize each absent expected column as an
all-`""` column, then coerce every expected-column cell with
`fillna("").astype(str).str.strip()`.  The per-cell pass is applied
positionally by zipping each row with the header (equivalent to the
per-column loop whenever the normalized names are duplicate-free, which
is the only case in which the pandas code runs without raising). -/
def loadFrame (fr : Frame) : Frame :=
  let hdr2 := normalize_columns fr.header ++ expectedMissing fr
  ⟨hdr2, fr.rows.map (fun row => (hdr2.zip (padRow fr row)).map normCell)⟩

/-- `load_csv(path)` (`app.py` lines 233-249) over an abstract filesystem
mapping paths to parsed frames: a missing path raises
`FileNotFoundError` (modelled as the error case), otherwise the parsed
frame is normalized.  No other outcome exists. -/
def load_csv (fs : String → Option Frame) (path : String) : Except String Frame :=
  match fs path with
  | none => Except.error ("CSV not found: " ++ path)
  | some fr => Except.ok (loadFrame fr)

/-- The cell of `row` under column name `c` (first matching column),
`none` when no column is named `c`. -/
def cellAt (hdr : List String) (row : List (Option String)) (c : String) :
    Option (Option String) :=
  ((hdr.zip row).find? (fun p => p.1 == c)).map (fun p => p.2)

/-- The default NA sentinels of `pd.read_csv` (`STR_NA_VALUES`): a field
whose unquoted text is one of these strings is parsed as missing (`NaN`)
even under `dtype=str`, `keep_default_na` being left `True`. -/
def pandasNA : List String :=
  ["", "#N/A", "#N/A N/A", "#NA", "-1.#IND", "-1.#QNAN", "-NaN", "-nan",
   "1.#IND", "1.#QNAN", "<NA>", "N/A", "NA", "NULL", "NaN", "None",
   "n/a", "nan", "null"]

/-- What one cell survives of `to_csv` followed by `read_csv`: a missing
cell or the empty string is written as an empty field and read back as
missing (`NaN`, i.e. `none`); any other string is written back verbatim
and re-parsed — as `NaN` when it is one of `read_csv`'s default NA
sentinels, unchanged otherwise. -/
def csvCell (v : Option String) : Option String :=
  match v with
  | some s => if s ∈ pandasNA then none else some s
  | none => none

/-- `f.to_csv(index=False)` followed by `pd.read_csv(..., dtype=str)`
(`app.py` line 718 plus the reload of C8's round trip): every cell
survives as `csvCell` describes, and the header survives unchanged —
which is `read_csv`'s behavior for header names that are non-empty and
pairwise distinct (an empty name would come back `Unnamed: N`, a
duplicate would be suffix-mangled); the round-trip theorem carries those
two conditions as hypotheses. -/
def csvRoundTrip (g : Frame) : Frame :=
  ⟨g.header, g.rows.map (fun row => row.map csvCell)⟩

/-! ## Concrete data used by scenarios, witnesses and counterexamples -/

/-- A record with all 14 fields empty. -/
def blankRecord : Record :=
  ⟨"", "", "", "", "", "", "", "", "", "", "", "", "", ""⟩

/-- A record with only country and tool name set. -/
def mkRec (country tool : String) : Record :=
  { blankRecord with country_label := country, tool_name := tool }

/-- The three-record dataset of the spec's scenario (§8):
countries France, France, Germany with tools PLEXOS, empty, PyPSA. -/
def scenarioData : List Record :=
  [mkRec "France" "PLEXOS", mkRec "France" "", mkRec "Germany" "PyPSA"]

/-- Criteria selecting country France, everything else unconstrained. -/
def franceOnly : Criteria := ⟨"France", "All", "All", "All", ""⟩

/-- A single record whose only non-empty field is `country_label = "France"`. -/
def franceRecord : Record := mkRec "France" ""

/-! ## Basic filter lemmas -/

/-- Each categorical filter step keeps a sublist of its input. -/
theorem stepFilter_sublist (b : Prop) [Decidable b] (p : Record → Bool)
    (l : List Record) : (if b then l else l.filter p).Sublist l := by
  split
  · exact List.Sublist.refl l
  · exact List.filter_sublist l

/-- The free-text filter step keeps a sublist of its input. -/
theorem textFilter_sublist (q : String) (rows : List Record) :
    (textFilter q rows).Sublist rows := by
  unfold textFilter
  split
  · exact List.Sublist.refl rows
  · exact List.filter_sublist rows

/-- The whole filter conjunction keeps a sublist of the dataset. -/
theorem applyFilters_sublist (c : Criteria) (rows : List Record) :
    (applyFilters c rows).Sublist rows := by
  simp only [applyFilters]
  exact (textFilter_sublist _ _).trans ((stepFilter_sublist _ _ _).trans
    ((stepFilter_sublist _ _ _).trans ((stepFilter_sublist _ _ _).trans
      (stepFilter_sublist _ _ _))))

/-- C4: for every Dataset `D` and criteria `C`, the Filtered view is a
subsequence of `D`: it is a `Sublist` of `D` (hence every record of the
view occurs in `D` and the view preserves `D`'s order), every record of
the view is a member of `D`, and its length is at most `D`'s.  Filtering
is a pure function of `D`, so `D` itself is unchanged. -/
theorem C4_filtered_view_subsequence (D : List Record) (C : Criteria) :
    (applyFilters C D).Sublist D ∧ (∀ r ∈ applyFilters C D, r ∈ D) ∧
      (applyFilters C D).length ≤ D.length :=
  ⟨applyFilters_sublist C D, fun _ hr => (applyFilters_sublist C D).subset hr,
   (applyFilters_sublist C D).length_le⟩

/-- C5: filtering with all four categorical selections set to the
sentinel `"All"` and an empty text query returns the dataset itself,
same records in the same order. -/
theorem C5_all_sentinel_identity (D : List Record) :
    applyFilters ⟨"All", "All", "All", "All", ""⟩ D = D := rfl

/-- C7: every aggregation over an empty Filtered view — tool value counts
with any `N` and either flag value, group-by count, group-by
distinct-count, the map data, and the categorical breakdown — returns the
empty list.  All aggregations are total functions, so no error state
exists; in particular value counts with `N = 20` on an empty view is `[]`. -/
theorem C7_empty_view_aggregations (n : Nat) (b : Bool) :
    tool_counts [] b n = [] ∧ value_counts [] = [] ∧ groupSize [] = [] ∧
      groupNunique [] = [] ∧ mapDf [] b = [] ∧ catBreakdown [] = [] ∧
      tool_counts [] b 20 = [] := by
  cases b <;>
    simp [tool_counts, value_counts, tallyOf, distinctFirst, groupSize,
      groupNunique, mapDf, catBreakdown, List.insertionSort]

/-- C9: when the path does not exist (the filesystem yields nothing for
it), `load_csv` fails with the file-not-found error naming the path, and
no Dataset results: no frame can be returned. -/
theorem C9_missing_file (fs : String → Option Frame) (path : String)
    (h : fs path = none) :
    load_csv fs path = Except.error ("CSV not found: " ++ path) ∧
      ∀ fr : Frame, load_csv fs path ≠ Except.ok fr := by
  unfold load_csv
  rw [h]
  exact ⟨rfl, fun _ hk => Except.noConfusion hk⟩

/-- Witness for C9 at a concrete empty filesystem and path. -/
theorem C9_missing_file_witness :
    ((fun _ : String => (none : Option Frame)) "data.csv" = none) ∧
      load_csv (fun _ => none) "data.csv" =
        Except.error ("CSV not found: " ++ "data.csv") :=
  ⟨rfl, (C9_missing_file (fun _ => none) "data.csv" rfl).1⟩

/-! ## Properties of `pyStrip` -/

theorem dropWhile_idem {α : Type*} (p : α → Bool) (l : List α) :
    (l.dropWhile p).dropWhile p = l.dropWhile p := by
  induction l with
  | nil => rfl
  | cons c t ih =>
    by_cases h : p c
    · rw [List.dropWhile_cons_of_pos h]
      exact ih
    · rw [List.dropWhile_cons_of_neg h, List.dropWhile_cons_of_neg h]

theorem head?_dropWhile_false {α : Type*} (p : α → Bool) (l : List α) {c : α}
    (h : (l.dropWhile p).head? = some c) : p c = false := by
  have h2 := List.head?_dropWhile_not p l
  rw [h] at h2
  exact h2

theorem dropWhile_eq_self_of_head {α : Type*} (p : α → Bool) (l : List α)
    (h : ∀ c, l.head? = some c → p c = false) : l.dropWhile p = l := by
  cases l with
  | nil => rfl
  | cons c t => exact List.dropWhile_cons_of_neg (by simp [h c rfl])

theorem getLast?_dropWhile {α : Type*} (p : α → Bool) (l : List α)
    (h : l.dropWhile p ≠ []) : (l.dropWhile p).getLast? = l.getLast? := by
  induction l with
  | nil => simp at h
  | cons c t ih =>
    by_cases hc : p c
    · rw [List.dropWhile_cons_of_pos hc] at h ⊢
      have ht : t ≠ [] := by
        intro h0
        rw [h0] at h
        exact h rfl
      rw [ih h]
      cases t with
      | nil => exact absurd rfl ht
      | cons x t2 => rw [List.getLast?_cons_cons]
    · rw [List.dropWhile_cons_of_neg hc]

/-- Python's `strip` is idempotent. -/
theorem pyStripL_idem (l : List Char) : pyStripL (pyStripL l) = pyStripL l := by
  unfold pyStripL
  have h1 : ((l.dropWhile Char.isWhitespace).reverse.dropWhile
      Char.isWhitespace).reverse.dropWhile Char.isWhitespace =
      ((l.dropWhile Char.isWhitespace).reverse.dropWhile Char.isWhitespace).reverse := by
    apply dropWhile_eq_self_of_head
    intro c hc
    rw [List.head?_reverse] at hc
    have hzne : (l.dropWhile Char.isWhitespace).reverse.dropWhile Char.isWhitespace ≠ [] := by
      intro h0
      rw [h0] at hc
      simp at hc
    rw [getLast?_dropWhile _ _ hzne, List.getLast?_reverse] at hc
    exact head?_dropWhile_false Char.isWhitespace l hc
  rw [h1, List.reverse_reverse, dropWhile_idem]

/-- Python's `strip` is idempotent (string level). -/
theorem pyStrip_idem (s : String) : pyStrip (pyStrip s) = pyStrip s :=
  congrArg String.mk (pyStripL_idem s.data)

/-- The free-text step evaluates the query through `strip`, so a
pre-stripped query filters identically. -/
theorem textFilter_pyStrip (q : String) (rows : List Record) :
    textFilter (pyStrip q) rows = textFilter q rows := by
  unfold textFilter
  rw [pyStrip_idem]

/-- C10: for every Dataset, categorical selection and query string, the
Filtered view computed with the query stripped of surrounding whitespace
equals the one computed with the raw query: the free-text predicate only
ever sees the trimmed query. -/
theorem C10_trimmed_query_equivalence (D : List Record) (C : Criteria) :
    applyFilters { C with query := pyStrip C.query } D = applyFilters C D := by
  simp only [applyFilters]
  exact textFilter_pyStrip C.query _

/-! ## Properties of `value_counts` and `tool_counts` -/

instance : IsTotal (String × Nat) descBy :=
  ⟨fun a b => Nat.le_total b.2 a.2⟩

instance : IsTrans (String × Nat) descBy :=
  ⟨fun _ _ _ h1 h2 => Nat.le_trans h2 h1⟩

theorem mem_distinctFirst (v : String) (vs : List String) :
    v ∈ distinctFirst vs ↔ v ∈ vs := by
  induction vs with
  | nil => simp [distinctFirst]
  | cons w t ih =>
    simp only [distinctFirst, List.mem_cons]
    constructor
    · rintro (rfl | h)
      · exact Or.inl rfl
      · exact Or.inr (ih.mp (List.mem_filter.mp h).1)
    · rintro (rfl | h)
      · exact Or.inl rfl
      · by_cases hv : v = w
        · exact Or.inl hv
        · exact Or.inr (List.mem_filter.mpr ⟨ih.mpr h, by simp [hv]⟩)

theorem mem_tallyOf {p : String × Nat} {vs : List String} (h : p ∈ tallyOf vs) :
    p.1 ∈ vs ∧ p.2 = countOcc p.1 vs := by
  unfold tallyOf at h
  obtain ⟨v, hv, hev⟩ := List.mem_map.mp h
  cases hev
  exact ⟨(mem_distinctFirst v vs).mp hv, rfl⟩

theorem mem_value_counts {p : String × Nat} {vs : List String}
    (h : p ∈ value_counts vs) : p.1 ∈ vs ∧ p.2 = countOcc p.1 vs :=
  mem_tallyOf ((List.mem_insertionSort descBy).mp h)

theorem length_value_counts (vs : List String) :
    (value_counts vs).length = (distinctFirst vs).length := by
  unfold value_counts tallyOf
  rw [List.length_insertionSort, List.length_map]

theorem countOcc_map (f : String → String) (v : String) (vs : List String) :
    countOcc v (vs.map f) = (vs.filter (fun x => f x = v)).length := by
  unfold countOcc
  rw [List.filter_map, List.length_map]
  rfl

/-- C6: on trimmed data (all Filtered-view values are trimmed, as the
normalizer guarantees) and any `N` in `5..50`: with the flag off,
`tool_counts` counts only non-empty values (each returned pair's value
is non-empty and its count is its number of occurrences among the
non-empty values); with the flag on, each pair's count is the number of
source values mapping to it under the empty-to-`"Unknown"` substitution
(so empties are counted under the literal label `"Unknown"`); and in
either mode the result length is at most `N` and at most the number of
distinct counted values. -/
theorem C6_tool_count_modes (vs : List String) (n : Nat)
    (_hn5 : 5 ≤ n) (_hn50 : n ≤ 50) (htrim : ∀ v ∈ vs, pyStrip v = v) :
    (∀ p ∈ tool_counts vs false n,
      p.1 ≠ "" ∧ p.2 = countOcc p.1 (vs.filter (fun v => v ≠ ""))) ∧
    (∀ p ∈ tool_counts vs true n,
      p.2 = (vs.filter (fun v => (if v = "" then "Unknown" else v) = p.1)).length) ∧
    (∀ b : Bool, (tool_counts vs b n).length ≤ n) ∧
    (tool_counts vs false n).length ≤
      (distinctFirst (vs.filter (fun v => v ≠ ""))).length ∧
    (tool_counts vs true n).length ≤
      (distinctFirst (vs.map (fun v => if v = "" then "Unknown" else v))).length := by
  have hfil : vs.filter (fun v => pyStrip v ≠ "") = vs.filter (fun v => v ≠ "") :=
    List.filter_congr (fun v hv => by rw [htrim v hv])
  have hoff : tool_counts vs false n =
      (value_counts (vs.filter (fun v => v ≠ ""))).take n := by
    show (value_counts (vs.filter (fun v => pyStrip v ≠ ""))).take n = _
    rw [hfil]
  have hon : tool_counts vs true n =
      (value_counts (vs.map (fun v => if v = "" then "Unknown" else v))).take n := rfl
  refine ⟨?_, ?_, ?_, ?_, ?_⟩
  · intro p hp
    rw [hoff] at hp
    have hm := mem_value_counts (List.take_subset n _ hp)
    refine ⟨?_, hm.2⟩
    have h2 := List.mem_filter.mp hm.1
    simpa using h2.2
  · intro p hp
    rw [hon] at hp
    have hm := mem_value_counts (List.take_subset n _ hp)
    rw [hm.2, countOcc_map]
  · intro b
    cases b
    · rw [hoff]
      exact List.length_take_le n _
    · rw [hon]
      exact List.length_take_le n _
  · rw [hoff, ← length_value_counts]
    rw [List.length_take]
    exact Nat.min_le_right _ _
  · rw [hon, ← length_value_counts]
    rw [List.length_take]
    exact Nat.min_le_right _ _

/-- Witness for C6 at concrete trimmed data and `N = 20`. -/
theorem C6_tool_count_modes_witness :
    (5 ≤ 20 ∧ 20 ≤ 50) ∧ (tool_counts ["PLEXOS", "", "PyPSA"] false 20).length ≤ 20 :=
  ⟨⟨by decide, by decide⟩,
    (C6_tool_count_modes ["PLEXOS", "", "PyPSA"] 20 (by decide) (by decide)
      (by decide)).2.2.1 false⟩

/-! ## Stability of the `value_counts` ordering -/

theorem filter_count_orderedInsert (k : Nat) (p : String × Nat)
    (l : List (String × Nat)) :
    (l.orderedInsert descBy p).filter (fun q => q.2 = k) =
      (if p.2 = k then [p] else []) ++ l.filter (fun q => q.2 = k) := by
  induction l with
  | nil => by_cases hp : p.2 = k <;> simp [List.orderedInsert, hp]
  | cons q t ih =>
    by_cases hins : descBy p q
    · rw [show (q :: t).orderedInsert descBy p = p :: q :: t from by
        simp [List.orderedInsert, hins]]
      by_cases hp : p.2 = k <;> simp [List.filter_cons, hp]
    · rw [show (q :: t).orderedInsert descBy p = q :: t.orderedInsert descBy p from by
        simp [List.orderedInsert, hins]]
      by_cases hq : q.2 = k <;> by_cases hp : p.2 = k
      · exact absurd (show descBy p q from by
          unfold descBy
          rw [hq, hp]) hins
      all_goals simp [List.filter_cons, hq, hp, ih]

theorem filter_count_insertionSort (k : Nat) (l : List (String × Nat)) :
    (l.insertionSort descBy).filter (fun q => q.2 = k) =
      l.filter (fun q => q.2 = k) := by
  induction l with
  | nil => rfl
  | cons p t ih =>
    rw [show (p :: t).insertionSort descBy =
      (t.insertionSort descBy).orderedInsert descBy p from rfl]
    rw [filter_count_orderedInsert, ih, List.filter_cons]
    by_cases hp : p.2 = k <;> simp [hp]

/-- C2 (amended): `tool_counts` returns (value, count) pairs sorted
descending by count; ties keep first-encounter order (for every count
`k`, the pairs of count `k` appear exactly as in the first-encounter
tally); the result is truncated to the top `N`.  For the scenario dataset
(countries France, France, Germany; tools PLEXOS, empty, PyPSA) filtered
to country France: with `include_unknown_tools` off the result is
`[("PLEXOS", 1)]`, and with the flag on it is
`[("PLEXOS", 1), ("Unknown", 1)]` — PLEXOS first, because on the tie the
first-encountered value (row order) is listed first. -/
theorem C2_value_count_ordering (vs : List String) (b : Bool) (n : Nat) :
    List.Sorted descBy (tool_counts vs b n) ∧
    (∀ k : Nat, (value_counts vs).filter (fun q => q.2 = k) =
      (tallyOf vs).filter (fun q => q.2 = k)) ∧
    (tool_counts vs b n).length ≤ n ∧
    tool_counts ((applyFilters franceOnly scenarioData).map
      (fun r => r.tool_name)) false 20 = [("PLEXOS", 1)] ∧
    tool_counts ((applyFilters franceOnly scenarioData).map
      (fun r => r.tool_name)) true 20 = [("PLEXOS", 1), ("Unknown", 1)] := by
  have hform : tool_counts vs b n = (value_counts
      (if b then vs.map (fun v => if v = "" then "Unknown" else v)
       else vs.filter (fun v => pyStrip v ≠ ""))).take n := by
    cases b <;> rfl
  refine ⟨?_, fun k => filter_count_insertionSort k _, ?_, by decide, by decide⟩
  · rw [hform]
    exact (List.sorted_insertionSort descBy _).sublist (List.take_sublist n _)
  · rw [hform]
    exact List.length_take_le n _

/-- Counterexample to C2 as stated: with the flag on, the scenario's
value-count aggregation does not return `[("Unknown", 1), ("PLEXOS", 1)]`
(it returns the tie in first-encounter order, PLEXOS first). -/
theorem C2_counterexample :
    tool_counts ((applyFilters franceOnly scenarioData).map
      (fun r => r.tool_name)) true 20 ≠ [("Unknown", 1), ("PLEXOS", 1)] := by
  decide

/-! ## Case-insensitivity of the free-text filter -/

theorem toNat_ofNat_valid {m : Nat} (h : m.isValidChar) :
    (Char.ofNat m).toNat = m := by
  unfold Char.ofNat
  rw [dif_pos h]
  rfl

theorem toLower_toUpper (c : Char) : c.toUpper.toLower = c.toLower := by
  show (if c.toNat ≥ 97 ∧ c.toNat ≤ 122 then Char.ofNat (c.toNat - 32)
    else c).toLower = c.toLower
  by_cases h : c.toNat ≥ 97 ∧ c.toNat ≤ 122
  · rw [if_pos h]
    have ht : (Char.ofNat (c.toNat - 32)).toNat = c.toNat - 32 :=
      toNat_ofNat_valid (Or.inl (by omega))
    show (if (Char.ofNat (c.toNat - 32)).toNat ≥ 65 ∧
        (Char.ofNat (c.toNat - 32)).toNat ≤ 90
      then Char.ofNat ((Char.ofNat (c.toNat - 32)).toNat + 32)
      else Char.ofNat (c.toNat - 32)) = c.toLower
    rw [ht, if_pos (by omega : c.toNat - 32 ≥ 65 ∧ c.toNat - 32 ≤ 90)]
    show Char.ofNat (c.toNat - 32 + 32) =
      (if c.toNat ≥ 65 ∧ c.toNat ≤ 90 then Char.ofNat (c.toNat + 32) else c)
    rw [if_neg (by omega : ¬(c.toNat ≥ 65 ∧ c.toNat ≤ 90)),
      (by omega : c.toNat - 32 + 32 = c.toNat), Char.ofNat_toNat]
  · rw [if_neg h]

theorem ws_false_of_toNat {d : Char} (h : 65 ≤ d.toNat ∧ d.toNat ≤ 122) :
    d.isWhitespace = false := by
  unfold Char.isWhitespace
  have h1 : ¬ d = ' ' := by
    intro he
    rw [he] at h
    exact absurd h (by decide)
  have h2 : ¬ d = '\t' := by
    intro he
    rw [he] at h
    exact absurd h (by decide)
  have h3 : ¬ d = '\r' := by
    intro he
    rw [he] at h
    exact absurd h (by decide)
  have h4 : ¬ d = '\n' := by
    intro he
    rw [he] at h
    exact absurd h (by decide)
  simp [h1, h2, h3, h4]

theorem isWhitespace_toUpper (c : Char) :
    c.toUpper.isWhitespace = c.isWhitespace := by
  show (if c.toNat ≥ 97 ∧ c.toNat ≤ 122 then Char.ofNat (c.toNat - 32)
    else c).isWhitespace = c.isWhitespace
  by_cases h : c.toNat ≥ 97 ∧ c.toNat ≤ 122
  · rw [if_pos h]
    have ht : (Char.ofNat (c.toNat - 32)).toNat = c.toNat - 32 :=
      toNat_ofNat_valid (Or.inl (by omega))
    rw [ws_false_of_toNat (by rw [ht]; omega),
      ws_false_of_toNat (by omega : 65 ≤ c.toNat ∧ c.toNat ≤ 122)]
  · rw [if_neg h]

theorem pyLowerL_map_toUpper (l : List Char) :
    pyLowerL (l.map Char.toUpper) = pyLowerL l := by
  unfold pyLowerL
  rw [List.map_map]
  exact List.map_congr_left (fun c _ => toLower_toUpper c)

theorem pyStripL_map_toUpper (l : List Char) :
    pyStripL (l.map Char.toUpper) = (pyStripL l).map Char.toUpper := by
  unfold pyStripL
  have hws : (Char.isWhitespace ∘ Char.toUpper) = Char.isWhitespace :=
    funext isWhitespace_toUpper
  rw [List.dropWhile_map, hws, ← List.map_reverse, List.dropWhile_map, hws,
    ← List.map_reverse]

theorem pyStrip_pyUpper (q : String) : pyStrip (pyUpper q) = pyUpper (pyStrip q) :=
  congrArg String.mk (pyStripL_map_toUpper q.data)

theorem pyUpper_eq_empty {s : String} : pyUpper s = "" ↔ s = "" := by
  constructor
  · intro h
    exact String.ext (List.map_eq_nil_iff.mp (congrArg String.data h))
  · rintro rfl
    rfl

theorem contains_text_row_pyUpper (r : Record) (t : String) :
    contains_text_row r (pyUpper t) = contains_text_row r t := by
  unfold contains_text_row
  by_cases h : t = ""
  · subst h
    rfl
  · rw [if_neg h, if_neg (fun hu => h (pyUpper_eq_empty.mp hu)),
      show (pyUpper t).data = t.data.map Char.toUpper from rfl,
      pyLowerL_map_toUpper]

/-- Uppercasing the query does not change the Filtered view. -/
theorem textFilter_pyUpper (q : String) (rows : List Record) :
    textFilter (pyUpper q) rows = textFilter q rows := by
  unfold textFilter
  rw [pyStrip_pyUpper]
  by_cases h : pyStrip q = ""
  · rw [h]
    rfl
  · rw [if_neg (fun hu => h (pyUpper_eq_empty.mp hu)), if_neg h]
    exact List.filter_congr (fun s _ => contains_text_row_pyUpper s (pyStrip q))

/-- C1 (amended): an empty or whitespace-only query passes every record;
for a query with non-blank content, a record passes iff the
case-insensitive *trimmed* query occurs as a substring of the
case-insensitive concatenation of the record's 14 expected field values
joined by `" | "`; and a query and its uppercased form yield identical
Filtered views. -/
theorem C1_free_text_filter (q : String) (rows : List Record) :
    (pyStrip q = "" → textFilter q rows = rows) ∧
    (pyStrip q ≠ "" → textFilter q rows = rows.filter
      (fun s => isSubstrL (pyLowerL (pyStrip q).data) (pyLowerL (hayL s)))) ∧
    textFilter (pyUpper q) rows = textFilter q rows := by
  refine ⟨?_, ?_, textFilter_pyUpper q rows⟩
  · intro h
    unfold textFilter
    rw [if_pos h]
  · intro h
    unfold textFilter
    rw [if_neg h]
    refine List.filter_congr (fun s _ => ?_)
    unfold contains_text_row
    rw [if_neg h]

/-- Witness for C1 (amended): the whitespace-only query `"  "` passes the
concrete one-record dataset through unchanged. -/
theorem C1_free_text_filter_witness :
    pyStrip "  " = "" ∧ textFilter "  " [franceRecord] = [franceRecord] :=
  ⟨by decide, (C1_free_text_filter "  " [franceRecord]).1 (by decide)⟩

/-- Counterexample to C1 as stated: for the query `" France "` (non-blank
content, untrimmed) and a record whose only non-empty field is
`country_label = "France"`, the filter passes the record — the code
matches on the trimmed query — although the case-insensitive untrimmed
query `" france "` is not a substring of the case-insensitive
concatenation of the record's 14 field values joined by `" | "`. -/
theorem C1_counterexample :
    pyStrip " France " ≠ "" ∧
    textFilter " France " [franceRecord] = [franceRecord] ∧
    isSubstrL (pyLowerL (" France ").data) (pyLowerL (hayL franceRecord)) = false := by
  decide

/-! ## Structure of `loadFrame` -/

theorem loadFrame_header (fr : Frame) :
    (loadFrame fr).header = normalize_columns fr.header ++ expectedMissing fr := rfl

theorem loadFrame_rows (fr : Frame) :
    (loadFrame fr).rows = fr.rows.map (fun row =>
      ((loadFrame fr).header.zip (padRow fr row)).map normCell) := rfl

theorem expected_mem_loadFrame_header (fr : Frame) {c : String}
    (hcE : c ∈ EXPECTED_COLUMNS) : c ∈ (loadFrame fr).header := by
  rw [loadFrame_header]
  by_cases hc : c ∈ normalize_columns fr.header
  · exact List.mem_append_left _ hc
  · refine List.mem_append_right _ ?_
    unfold expectedMissing
    rw [List.mem_filter]
    exact ⟨hcE, by simpa using hc⟩

theorem length_loadFrame_header (fr : Frame) :
    (loadFrame fr).header.length = fr.header.length + (expectedMissing fr).length := by
  rw [loadFrame_header, List.length_append]
  unfold normalize_columns
  rw [List.length_map]

theorem length_padRow (fr : Frame) {row : List (Option String)}
    (hl : row.length = fr.header.length) :
    (padRow fr row).length = (loadFrame fr).header.length := by
  unfold padRow
  rw [List.length_append, List.length_map, hl, length_loadFrame_header]

theorem get?_zip_pair (hdr : List String) (row : List (Option String))
    (i : Nat) (c : String) (v : Option String)
    (hc : hdr.get? i = some c) (hv : row.get? i = some v) :
    (hdr.zip row).get? i = some (c, v) := by
  induction hdr generalizing row i with
  | nil => simp at hc
  | cons h0 t ih =>
    cases row with
    | nil => simp at hv
    | cons v0 row' =>
      cases i with
      | zero =>
        simp only [List.get?] at hc hv
        cases hc
        cases hv
        rfl
      | succ n =>
        simp only [List.get?] at hc hv
        simp only [List.zip_cons_cons, List.get?]
        exact ih row' n hc hv

theorem get?_zip_map_cell (hdr : List String) (row : List (Option String))
    (i : Nat) (c : String) (v : Option String)
    (hc : hdr.get? i = some c) (hv : row.get? i = some v) :
    ((hdr.zip row).map normCell).get? i = some (normCell (c, v)) := by
  induction hdr generalizing row i with
  | nil => simp at hc
  | cons h0 t ih =>
    cases row with
    | nil => simp at hv
    | cons v0 row' =>
      cases i with
      | zero =>
        simp only [List.get?] at hc hv
        cases hc
        cases hv
        rfl
      | succ n =>
        simp only [List.get?] at hc hv
        simp only [List.zip_cons_cons, List.map_cons, List.get?]
        exact ih row' n hc hv

/-- Every row of a loaded frame has the header's length, and every cell
under an expected column name is a trimmed string. -/
theorem loadFrame_row_spec (fr : Frame)
    (hlen : ∀ row ∈ fr.rows, row.length = fr.header.length)
    {orow : List (Option String)} (ho : orow ∈ (loadFrame fr).rows) :
    orow.length = (loadFrame fr).header.length ∧
    ∀ i c, (loadFrame fr).header.get? i = some c → c ∈ EXPECTED_COLUMNS →
      ∃ s, orow.get? i = some (some s) ∧ pyStrip s = s := by
  rw [loadFrame_rows] at ho
  obtain ⟨row, hrow, rfl⟩ := List.mem_map.mp ho
  have hpl : (padRow fr row).length = (loadFrame fr).header.length :=
    length_padRow fr (hlen row hrow)
  constructor
  · rw [List.length_map, List.length_zip, hpl, Nat.min_self]
  · intro i c hc hcE
    have hi : i < (loadFrame fr).header.length := by
      obtain ⟨h, _⟩ := List.get?_eq_some.mp hc
      exact h
    have hiv : i < (padRow fr row).length := by
      rw [hpl]
      exact hi
    have hv : (padRow fr row).get? i = some ((padRow fr row).get ⟨i, hiv⟩) :=
      List.get?_eq_get hiv
    refine ⟨pyStrip (((padRow fr row).get ⟨i, hiv⟩).getD ""), ?_, pyStrip_idem _⟩
    rw [get?_zip_map_cell _ _ i c _ hc hv]
    unfold normCell
    rw [if_pos hcE]

theorem find?_beq_mem {c : String} {l : List String} (h : c ∈ l) :
    l.find? (fun v => v == c) = some c := by
  induction l with
  | nil => simp at h
  | cons a t ih =>
    cases ha : (a == c) with
    | true =>
      rw [show List.find? (fun v => v == c) (a :: t) =
        match a == c with
        | true => some a
        | false => List.find? (fun v => v == c) t from rfl, ha]
      rw [eq_of_beq ha]
    | false =>
      rw [show List.find? (fun v => v == c) (a :: t) =
        match a == c with
        | true => some a
        | false => List.find? (fun v => v == c) t from rfl, ha]
      apply ih
      rcases List.mem_cons.mp h with rfl | hm
      · rw [beq_self_eq_true] at ha
        exact Bool.noConfusion ha
      · exact hm

theorem zip_self_map_pad (l : List String) :
    l.zip (l.map (fun _ => (some "" : Option String))) =
      l.map (fun v => (v, (some "" : Option String))) := by
  induction l with
  | nil => rfl
  | cons a t ih =>
    rw [List.map_cons, List.zip_cons_cons, ih, List.map_cons]

theorem zip_map_normCell (hdr : List String) (pad : List (Option String))
    (hl : pad.length = hdr.length) :
    hdr.zip ((hdr.zip pad).map normCell) =
      (hdr.zip pad).map (fun p => (p.1, normCell p)) := by
  induction hdr generalizing pad with
  | nil => rfl
  | cons h0 t ih =>
    cases pad with
    | nil => simp at hl
    | cons v0 pad' =>
      simp only [List.zip_cons_cons, List.map_cons]
      rw [ih pad' (by simpa using hl)]

/-- In a loaded frame, a column synthesized for an absent expected name
holds `some ""` in every row (looked up by name). -/
theorem cellAt_loadFrame_missing (fr : Frame)
    (hlen : ∀ row ∈ fr.rows, row.length = fr.header.length)
    {c : String} (hcE : c ∈ EXPECTED_COLUMNS)
    (hcn : ¬ c ∈ normalize_columns fr.header)
    {orow : List (Option String)} (ho : orow ∈ (loadFrame fr).rows) :
    cellAt (loadFrame fr).header orow c = some (some "") := by
  rw [loadFrame_rows] at ho
  obtain ⟨row, hrow, rfl⟩ := List.mem_map.mp ho
  have hpl : (padRow fr row).length = (loadFrame fr).header.length :=
    length_padRow fr (hlen row hrow)
  unfold cellAt
  rw [zip_map_normCell _ _ hpl, List.find?_map, Option.map_map]
  show Option.map (fun p => normCell p)
      (((loadFrame fr).header.zip (padRow fr row)).find? (fun p => p.1 == c)) =
    some (some "")
  have hz : (loadFrame fr).header.zip (padRow fr row) =
      (normalize_columns fr.header).zip row ++
        (expectedMissing fr).zip ((expectedMissing fr).map (fun _ => some "")) := by
    rw [loadFrame_header]
    exact List.zip_append (by
      unfold normalize_columns
      rw [List.length_map, hlen row hrow])
  rw [hz, List.find?_append]
  have hnone : ((normalize_columns fr.header).zip row).find?
      (fun p => p.1 == c) = none := by
    rw [List.find?_eq_none]
    rintro ⟨a, b⟩ hx hbeq
    have ha : a ∈ normalize_columns fr.header := (List.of_mem_zip hx).1
    have hac : a = c := eq_of_beq (by simpa using hbeq)
    exact hcn (hac ▸ ha)
  rw [hnone, Option.none_or, zip_self_map_pad, List.find?_map]
  have hmem : c ∈ expectedMissing fr := by
    unfold expectedMissing
    rw [List.mem_filter]
    exact ⟨hcE, by simpa using hcn⟩
  show Option.map (fun p => normCell p)
      (Option.map (fun v => (v, (some "" : Option String)))
        ((expectedMissing fr).find? (fun v => v == c))) = some (some "")
  rw [find?_beq_mem hmem]
  show some (normCell (c, some "")) = some (some "")
  unfold normCell
  rw [if_pos hcE]
  rfl

/-- Positional account of the loaded rows: every cell under an
expected-named column is `fillna`-ed and trimmed; every other cell is
unchanged. -/
theorem loadFrame_cell_positional (fr : Frame)
    (hlen : ∀ row ∈ fr.rows, row.length = fr.header.length) :
    List.Forall₂ (fun row orow => ∀ i c0 v,
      fr.header.get? i = some c0 → row.get? i = some v →
      orow.get? i = some (if normName c0 ∈ EXPECTED_COLUMNS
        then some (pyStrip (v.getD "")) else v)) fr.rows (loadFrame fr).rows := by
  rw [loadFrame_rows, List.forall₂_map_right_iff, List.forall₂_same]
  intro row hrow i c0 v hc0 hv
  obtain ⟨hi, _⟩ := List.get?_eq_some.mp hc0
  have hchdr : (normalize_columns fr.header).get? i = some (normName c0) := by
    unfold normalize_columns
    rw [List.get?_map, hc0]
    rfl
  have hc2 : (loadFrame fr).header.get? i = some (normName c0) := by
    rw [loadFrame_header, List.get?_append (by
      unfold normalize_columns
      rw [List.length_map]
      exact hi)]
    exact hchdr
  have hv2 : (padRow fr row).get? i = some v := by
    unfold padRow
    rw [List.get?_append (by rw [hlen row hrow]; exact hi)]
    exact hv
  rw [get?_zip_map_cell _ _ i (normName c0) v hc2 hv2]
  rfl

/-- C3: for every rectangular input frame, the loaded frame contains all
14 expected columns; each expected column absent from the (normalized)
source header holds `""` in every row; every cell of an expected-named
column is a string trimmed of surrounding whitespace; the number of rows
is unchanged; and row by row, each cell is the original cell — trimmed
(after `fillna("")`) when its column is expected-named, untouched
otherwise.  The `Nodup` hypothesis delimits the inputs on which the
pandas column loop runs without raising. -/
theorem C3_normalizer_contract (fr : Frame)
    (_hnodup : (normalize_columns fr.header).Nodup)
    (hlen : ∀ row ∈ fr.rows, row.length = fr.header.length) :
    (∀ c ∈ EXPECTED_COLUMNS, c ∈ (loadFrame fr).header) ∧
    (∀ c ∈ EXPECTED_COLUMNS, ¬ c ∈ normalize_columns fr.header →
      ∀ orow ∈ (loadFrame fr).rows,
        cellAt (loadFrame fr).header orow c = some (some "")) ∧
    (∀ orow ∈ (loadFrame fr).rows, ∀ i c,
      (loadFrame fr).header.get? i = some c → c ∈ EXPECTED_COLUMNS →
      ∃ s, orow.get? i = some (some s) ∧ pyStrip s = s) ∧
    (loadFrame fr).rows.length = fr.rows.length ∧
    List.Forall₂ (fun row orow => ∀ i c0 v,
      fr.header.get? i = some c0 → row.get? i = some v →
      orow.get? i = some (if normName c0 ∈ EXPECTED_COLUMNS
        then some (pyStrip (v.getD "")) else v)) fr.rows (loadFrame fr).rows := by
  refine ⟨?_, ?_, ?_, ?_, loadFrame_cell_positional fr hlen⟩
  · intro c hcE
    exact expected_mem_loadFrame_header fr hcE
  · intro c hcE hcn orow ho
    exact cellAt_loadFrame_missing fr hlen hcE hcn ho
  · intro orow ho
    exact (loadFrame_row_spec fr hlen ho).2
  · rw [loadFrame_rows, List.length_map]

/-- A concrete two-column, two-row frame (one expected column with
whitespace to trim and a missing cell, one extra column). -/
def frW : Frame :=
  ⟨["tool_name", "extra col"], [[some " PLEXOS ", some "x"], [none, none]]⟩

/-- Witness for C3 at the concrete frame `frW`. -/
theorem C3_normalizer_contract_witness :
    ((normalize_columns frW.header).Nodup ∧
      ∀ row ∈ frW.rows, row.length = frW.header.length) ∧
    (loadFrame frW).rows.length = frW.rows.length :=
  ⟨⟨by decide, by decide⟩,
    (C3_normalizer_contract frW (by decide) (by decide)).2.2.2.1⟩

/-! ## The loaded header is a fixed point of normalization -/

theorem collapseWsAux_no_ws (b : Bool) (l : List Char) :
    ∀ c ∈ collapseWsAux b l, c.isWhitespace = false := by
  induction l generalizing b with
  | nil =>
    intro c hc
    simp [collapseWsAux] at hc
  | cons a t ih =>
    intro c hc
    unfold collapseWsAux at hc
    by_cases ha : a.isWhitespace
    · rw [if_pos ha] at hc
      cases b with
      | true => exact ih true c hc
      | false =>
        rcases List.mem_cons.mp hc with rfl | hm
        · decide
        · exact ih true c hm
    · rw [if_neg ha] at hc
      rcases List.mem_cons.mp hc with rfl | hm
      · exact Bool.not_eq_true _ |>.mp ha
      · exact ih false c hm

theorem pyStripL_eq_self {l : List Char}
    (h : ∀ c ∈ l, c.isWhitespace = false) : pyStripL l = l := by
  unfold pyStripL
  have h1 : l.dropWhile Char.isWhitespace = l :=
    dropWhile_eq_self_of_head _ _
      (fun c hc => h c (List.mem_of_mem_head? (by rw [hc]; rfl)))
  rw [h1]
  have h2 : l.reverse.dropWhile Char.isWhitespace = l.reverse :=
    dropWhile_eq_self_of_head _ _
      (fun c hc => h c (List.mem_reverse.mp
        (List.mem_of_mem_head? (by rw [hc]; rfl))))
  rw [h2, List.reverse_reverse]

theorem collapseWsAux_eq_self {l : List Char}
    (h : ∀ c ∈ l, c.isWhitespace = false) : collapseWsAux false l = l := by
  induction l with
  | nil => rfl
  | cons a t ih =>
    unfold collapseWsAux
    rw [if_neg (by simp [h a (List.mem_cons_self a t)]),
      ih (fun c hc => h c (List.mem_cons_of_mem a hc))]

theorem normName_idem (s : String) : normName (normName s) = normName s := by
  unfold normName
  apply congrArg String.mk
  have h := collapseWsAux_no_ws false (pyStripL s.data)
  show collapseWs (pyStripL (collapseWs (pyStripL s.data))) =
    collapseWs (pyStripL s.data)
  unfold collapseWs
  rw [pyStripL_eq_self h, collapseWsAux_eq_self h]

theorem normName_expected : ∀ c ∈ EXPECTED_COLUMNS, normName c = c := by decide

theorem normalize_columns_loadFrame (fr : Frame) :
    normalize_columns (loadFrame fr).header = (loadFrame fr).header := by
  rw [loadFrame_header]
  unfold normalize_columns
  rw [List.map_append]
  congr 1
  · show (fr.header.map normName).map normName = fr.header.map normName
    rw [List.map_map]
    exact List.map_congr_left (fun y _ => normName_idem y)
  · have hfix : ∀ c ∈ expectedMissing fr, normName c = c := by
      intro c hc
      unfold expectedMissing at hc
      exact normName_expected c (List.mem_filter.mp hc).1
    rw [List.map_congr_left hfix, List.map_id']

theorem expectedMissing_loaded (fr : Frame) (rows : List (List (Option String))) :
    expectedMissing ⟨(loadFrame fr).header, rows⟩ = [] := by
  unfold expectedMissing
  rw [List.filter_eq_nil_iff]
  intro c hc
  rw [show Frame.header ⟨(loadFrame fr).header, rows⟩ = (loadFrame fr).header from rfl,
    normalize_columns_loadFrame]
  simp only [decide_not, Bool.not_eq_true', decide_eq_false_iff_not, not_not]
  exact expected_mem_loadFrame_header fr hc

/-- C8 (amended): exporting a Filtered view (any selection `keep` of the
loaded frame's rows, with the loaded header) to the delimited format and
re-normalizing it reproduces the same Records — provided the view's
column names are non-empty and pairwise distinct (the domain on which
`read_csv` hands the header back verbatim) and no expected-field value
is a non-empty `read_csv` NA sentinel (which would reload as `NaN` and
be coerced to `""`).  Then the header is unchanged, every expected
column is present, and row by row every expected-column cell of the
reloaded frame equals the exported one. -/
theorem C8_export_roundtrip (fr : Frame)
    (hlen : ∀ row ∈ fr.rows, row.length = fr.header.length)
    (keep : List (List (Option String)))
    (hkeep : keep.Sublist (loadFrame fr).rows)
    (_hnodup : (loadFrame fr).header.Nodup)
    (_hnonempty : ∀ c ∈ (loadFrame fr).header, c ≠ "")
    (hna : ∀ row ∈ keep, ∀ p ∈ (loadFrame fr).header.zip row,
      p.1 ∈ EXPECTED_COLUMNS → p.2.getD "" ∈ pandasNA → p.2.getD "" = "") :
    (loadFrame (csvRoundTrip ⟨(loadFrame fr).header, keep⟩)).header =
      (loadFrame fr).header ∧
    (∀ c ∈ EXPECTED_COLUMNS,
      c ∈ (loadFrame (csvRoundTrip ⟨(loadFrame fr).header, keep⟩)).header) ∧
    List.Forall₂ (fun row orow => ∀ i c,
      (loadFrame fr).header.get? i = some c → c ∈ EXPECTED_COLUMNS →
      orow.get? i = row.get? i)
      keep (loadFrame (csvRoundTrip ⟨(loadFrame fr).header, keep⟩)).rows := by
  have hmiss : expectedMissing (csvRoundTrip ⟨(loadFrame fr).header, keep⟩) = [] :=
    expectedMissing_loaded fr _
  have hhdr : (loadFrame (csvRoundTrip ⟨(loadFrame fr).header, keep⟩)).header =
      (loadFrame fr).header := by
    rw [loadFrame_header,
      show (csvRoundTrip ⟨(loadFrame fr).header, keep⟩).header =
        (loadFrame fr).header from rfl,
      hmiss, List.append_nil, normalize_columns_loadFrame]
  refine ⟨hhdr, fun c hcE => by
    rw [hhdr]
    exact expected_mem_loadFrame_header fr hcE, ?_⟩
  have hrows : (loadFrame (csvRoundTrip ⟨(loadFrame fr).header, keep⟩)).rows =
      keep.map (fun row =>
        ((loadFrame (csvRoundTrip ⟨(loadFrame fr).header, keep⟩)).header.zip
          (padRow (csvRoundTrip ⟨(loadFrame fr).header, keep⟩)
            (row.map csvCell))).map normCell) := by
    rw [loadFrame_rows,
      show (csvRoundTrip ⟨(loadFrame fr).header, keep⟩).rows =
        keep.map (fun row => row.map csvCell) from rfl,
      List.map_map]
    rfl
  rw [hrows, List.forall₂_map_right_iff, List.forall₂_same]
  intro row hrow i c hc hcE
  obtain ⟨_, hcellspec⟩ := loadFrame_row_spec fr hlen (hkeep.subset hrow)
  obtain ⟨s, hs, hstrip⟩ := hcellspec i c hc hcE
  have hpad : padRow (csvRoundTrip ⟨(loadFrame fr).header, keep⟩)
      (row.map csvCell) = row.map csvCell := by
    unfold padRow
    rw [hmiss,
      show ((List.map (fun _ => (some "" : Option String)) ([] : List String))) =
        ([] : List (Option String)) from rfl,
      List.append_nil]
  have hc2 : (loadFrame (csvRoundTrip ⟨(loadFrame fr).header, keep⟩)).header.get? i =
      some c := by
    rw [hhdr]
    exact hc
  have hv2 : (row.map csvCell).get? i = some (csvCell (some s)) := by
    rw [List.get?_map, hs]
    rfl
  rw [hpad, get?_zip_map_cell _ _ i c _ hc2 hv2, hs]
  show some (normCell (c, csvCell (some s))) = some (some s)
  rw [show csvCell (some s) = if s ∈ pandasNA then none else some s from rfl]
  unfold normCell
  rw [if_pos hcE]
  by_cases hsNA : s ∈ pandasNA
  · have hpmem : (c, some s) ∈ (loadFrame fr).header.zip row :=
      List.get?_mem (get?_zip_pair _ _ i c (some s) hc hs)
    have hse : s = "" := hna row hrow (c, some s) hpmem hcE hsNA
    subst hse
    rw [if_pos hsNA]
    rfl
  · rw [if_neg hsNA, show (some s).getD "" = s from rfl, hstrip]

/-- Witness for C8 (amended) at the concrete frame `frW`, keeping all
loaded rows. -/
theorem C8_export_roundtrip_witness :
    ((∀ row ∈ frW.rows, row.length = frW.header.length) ∧
      ((loadFrame frW).rows).Sublist (loadFrame frW).rows ∧
      (loadFrame frW).header.Nodup ∧
      (∀ c ∈ (loadFrame frW).header, c ≠ "") ∧
      (∀ row ∈ (loadFrame frW).rows, ∀ p ∈ (loadFrame frW).header.zip row,
        p.1 ∈ EXPECTED_COLUMNS → p.2.getD "" ∈ pandasNA → p.2.getD "" = "")) ∧
    (loadFrame (csvRoundTrip ⟨(loadFrame frW).header, (loadFrame frW).rows⟩)).header =
      (loadFrame frW).header :=
  ⟨⟨by decide, List.Sublist.refl _, by decide, by decide, by decide⟩,
    (C8_export_roundtrip frW (by decide) (loadFrame frW).rows
      (List.Sublist.refl _) (by decide) (by decide) (by decide)).1⟩

/-- A one-column frame whose only cell is `" NA "`: it loads (trims) to
the string `"NA"`, which is a `read_csv` NA sentinel. -/
def frNA : Frame := ⟨["tool_name"], [[some " NA "]]⟩

/-- Counterexample to C8 as stated: take the Filtered view consisting of
all rows of the loaded frame `frNA` (the all-"All", empty-query view).
Its `tool_name` value is `"NA"`; after export and re-normalization the
bare field `NA` re-parses as `NaN` and is coerced to `""`, so the
round trip does not reproduce the same expected-field values. -/
theorem C8_counterexample :
    ((loadFrame frNA).rows.map
      (fun row => cellAt (loadFrame frNA).header row "tool_name")) =
        [some (some "NA")] ∧
    ((loadFrame (csvRoundTrip ⟨(loadFrame frNA).header,
        (loadFrame frNA).rows⟩)).rows.map
      (fun row => cellAt
        (loadFrame (csvRoundTrip ⟨(loadFrame frNA).header,
          (loadFrame frNA).rows⟩)).header row "tool_name")) =
        [some (some "")] ∧
    (some (some "NA") : Option (Option String)) ≠ some (some "") := by
  decide

end App
